import Mathlib

/-!
# JDA numeric core: feature evaluation, error metric, configuration, dispatch

A shallow embedding of `src/jda/common.cpp` and `src/main.cpp`.

* Values of the machine type `double` are elements of a type `D` equipped with an
  interpretation `Arith D` of the floating-point operations the code performs.
  The theorems about the feature evaluator hold for every interpretation; the
  theorems about the error metric are stated for the exact interpretation over
  the real numbers.  The exact interpretation over the rationals is executable.
* Values of the machine type `int` are integers; every `int` the code computes
  is assumed to stay inside the range of the type.
* A read outside a matrix has no defined result in the source; the embedding
  makes it explicit (`Outcome.undefined`, `none`).
-/

namespace jda

/-! ## Arithmetic on `double` -/

/-- An interpretation of the operations on `double` used by the code. -/
structure Arith (D : Type) where
  /-- conversion `double(n)` of an `int`, also used for the literals `1` and `0.` -/
  ofInt : Int → D
  add : D → D → D
  sub : D → D → D
  mul : D → D → D
  div : D → D → D
  /-- the library function `round`, from `double` to `double` -/
  round : D → D
  /-- conversion `int(x)` -/
  toInt : D → Int
  /-- the library function `std::sqrt` -/
  sqrt : D → D
  /-- the library function `std::pow` with an `int` exponent -/
  pow : D → Nat → D

/-- Rounding to the nearest integer, halfway cases away from zero, as C `round`. -/
def cround {α : Type} [LinearOrderedField α] [FloorRing α] (x : α) : Int :=
  if 0 ≤ x then Int.floor (x + 1 / 2) else Int.ceil (x - 1 / 2)

/-- Truncation toward zero, as the C++ conversion from `double` to `int`. -/
def ctrunc {α : Type} [LinearOrderedField α] [FloorRing α] (x : α) : Int :=
  if 0 ≤ x then Int.floor x else Int.ceil x

/-- The exact interpretation: `double` read as an ordered field, with a given
square root. -/
def exactArith (α : Type) [LinearOrderedField α] [FloorRing α] (sqrt : α → α) : Arith α where
  ofInt := fun n => (n : α)
  add := fun x y => x + y
  sub := fun x y => x - y
  mul := fun x y => x * y
  div := fun x y => x / y
  round := fun x => ((cround x : Int) : α)
  toInt := ctrunc
  sqrt := sqrt
  pow := fun x n => x ^ n

/-- Square root on the rationals, exact on squares of rationals: the square roots
of numerator and denominator, each rounded down. -/
def ratSqrt (x : ℚ) : ℚ := (Nat.sqrt x.num.toNat : ℚ) / (Nat.sqrt x.den : ℚ)

/-- The executable exact interpretation over the rationals. -/
def ratArith : Arith ℚ := exactArith ℚ ratSqrt

/-! ## Data model -/

/-- Modelled from the spec: the scale constants are declared with class `Feature`
in `jda/common.hpp`, which is not among the sources.  The scale is one of
`ORIGIN`, `HALF`, `QUARTER` (spec, section 3), the three cases the `switch` of
`Feature::CalcFeatureValue` names; `unsupported` stands for any other value the
field can hold. -/
inductive Scale where
  | ORIGIN
  | HALF
  | QUARTER
  | unsupported (raw : Int)
  deriving DecidableEq, Repr

/-- The scale is one of `ORIGIN`, `HALF`, `QUARTER`. -/
def Scale.supported : Scale → Bool
  | .unsupported _ => false
  | _ => true

/-- Modelled from the spec: class `Feature` is declared in `jda/common.hpp`.  The
descriptor of section 3: the fields `Feature::CalcFeatureValue` reads, landmark
indices as `int`, offsets as `double`. -/
structure Feature (D : Type) where
  scale : Scale
  landmark_id1 : Int
  landmark_id2 : Int
  offset1_x : D
  offset1_y : D
  offset2_x : D
  offset2_y : D

/-- An 8-bit pixel, the `uchar` read by `img.at<uchar>`. -/
abbrev UChar := Fin 256

/-- A grayscale image `cv::Mat`: `pix y x` is the byte at row `y`, column `x`. -/
structure Mat where
  rows : Nat
  cols : Nat
  pix : Nat → Nat → UChar

/-- The read `img.at<uchar>(y, x)`; defined inside the image only. -/
def Mat.at? (m : Mat) (y x : Int) : Option UChar :=
  if 0 ≤ y ∧ y < m.rows ∧ 0 ≤ x ∧ x < m.cols then some (m.pix y.toNat x.toNat) else none

/-- A shape `cv::Mat_<double>`: its single row. -/
abbrev Mat_ (D : Type) := List D

/-- The read `s(0, i)`; defined for `0 ≤ i < s.cols` only. -/
def Mat_.at? {D : Type} (s : Mat_ D) (i : Int) : Option D :=
  if 0 ≤ i then s.get? i.toNat else none

/-- What a call does: return a value to the caller, terminate the process after
writing to standard output, or read outside a matrix. -/
inductive Outcome where
  | returned (val : Int)
  | exited (out : String) (status : Int)
  | undefined
  deriving DecidableEq, Repr

/-! ## Diagnostics -/

/-- `LOG`: one line on standard output, the time stamp `clock` (the current time
formatted as `[%x - %X]`) followed by the message.  The message is a format
without conversion specification, which prints as itself. -/
def LOG (clock : String) (msg : String) : String :=
  clock ++ " " ++ msg ++ "\n"

/-- `dieWithMsg`: log the message, then `exit(-1)`. -/
def dieWithMsg (clock : String) (msg : String) : Outcome :=
  Outcome.exited (LOG clock msg) (-1)

/-! ## Feature evaluation -/

/-- Modelled from the spec: the helper `checkBoundaryOfImage` is declared in
`jda/common.hpp`, which is not among the sources.  Spec, section 4.1 step 4: any
value below 0 is set to 0; any value at or beyond the width/height of the
level is set to width - 1 / height - 1 respectively. -/
def checkBoundaryOfImage (w h x y : Int) : Int × Int :=
  (if x < 0 then 0 else if x ≥ w then w - 1 else x,
   if y < 0 then 0 else if y ≥ h then h - 1 else y)

/-- The variables set by the `switch` on the scale. -/
structure Level (D : Type) where
  ratio : D
  height : Int
  width : Int
  img : Mat

/-- The `switch` of `Feature::CalcFeatureValue` (lines 22-44); `none` is the
`default` branch. -/
def selectLevel {D : Type} (F : Arith D) (scale : Scale) (o h q : Mat) : Option (Level D) :=
  match scale with
  | .ORIGIN => some ⟨F.ofInt 1, o.rows, o.cols, o⟩
  | .HALF => some ⟨F.div (F.ofInt h.rows) (F.ofInt o.rows), h.rows, h.cols, h⟩
  | .QUARTER => some ⟨F.div (F.ofInt q.rows) (F.ofInt o.rows), q.rows, q.cols, q⟩
  | .unsupported _ => none

/-- One coordinate of lines 47-56: landmark coordinate plus the offset scaled by
the origin dimension, times the ratio, rounded and converted to `int`. -/
def projectCoord {D : Type} (F : Arith D) (dim : Int) (ratio landmark offset : D) : Int :=
  F.toInt (F.round (F.mul (F.add landmark (F.mul (F.ofInt dim) offset)) ratio))

/-- Lines 46-56: the rounded projected coordinates `(x1_, y1_, x2_, y2_)` before
the boundary check; `none` when a landmark read falls outside the shape. -/
def roundedCoords {D : Type} (F : Arith D) (f : Feature D) (o : Mat) (ratio : D)
    (s : Mat_ D) : Option (Int × Int × Int × Int) :=
  match Mat_.at? s (2 * f.landmark_id1), Mat_.at? s (2 * f.landmark_id1 + 1),
        Mat_.at? s (2 * f.landmark_id2), Mat_.at? s (2 * f.landmark_id2 + 1) with
  | some sx1, some sy1, some sx2, some sy2 =>
    some (projectCoord F o.cols ratio sx1 f.offset1_x,
          projectCoord F o.rows ratio sy1 f.offset1_y,
          projectCoord F o.cols ratio sx2 f.offset2_x,
          projectCoord F o.rows ratio sy2 f.offset2_y)
  | _, _, _, _ => none

/-- Lines 58-62: boundary check of both points, then the difference of the two
pixels. -/
def samplePair (img : Mat) (width height : Int) (c : Int × Int × Int × Int) : Outcome :=
  let p1 := checkBoundaryOfImage width height c.1 c.2.1
  let p2 := checkBoundaryOfImage width height c.2.2.1 c.2.2.2
  match img.at? p1.2 p1.1, img.at? p2.2 p2.1 with
  | some a, some b => Outcome.returned ((a.val : Int) - (b.val : Int))
  | _, _ => Outcome.undefined

/-- `Feature::CalcFeatureValue(o, h, q, s)`. -/
def CalcFeatureValue {D : Type} (F : Arith D) (clock : String) (f : Feature D)
    (o h q : Mat) (s : Mat_ D) : Outcome :=
  match selectLevel F f.scale o h q with
  | none => dieWithMsg clock "Unsupported SCALE"
  | some lv =>
    match roundedCoords F f o lv.ratio s with
    | none => Outcome.undefined
    | some c => samplePair lv.img lv.width lv.height c

/-! ## Notions used to state the properties of the feature evaluator -/

/-- Clamping of `x` into `[lo, hi]`, as a closed formula. -/
def clampTo (lo hi x : Int) : Int := max lo (min hi x)

/-- The pyramid level a scale names: the image the `switch` assigns to `img`. -/
def pyramidLevel (scale : Scale) (o h q : Mat) : Option Mat :=
  match scale with
  | .ORIGIN => some o
  | .HALF => some h
  | .QUARTER => some q
  | .unsupported _ => none

/-- The shape holds landmark `id`: both `2 * id` and `2 * id + 1` are columns of it. -/
def Mat_.holds {D : Type} (s : Mat_ D) (id : Int) : Prop :=
  0 ≤ id ∧ 2 * id + 1 < (s.length : Int)

instance {D : Type} (s : Mat_ D) (id : Int) : Decidable (Mat_.holds s id) :=
  inferInstanceAs (Decidable (0 ≤ id ∧ 2 * id + 1 < (s.length : Int)))

/-- Two rounded coordinates along a dimension of size `n` that the boundary check
sends to the same pixel: equal, or `n` against `n - 1`, or negative against `0`. -/
def boundaryTwin (n a b : Int) : Prop :=
  a = b ∨ (a = n ∧ b = n - 1) ∨ (a < 0 ∧ b = 0)

instance (n a b : Int) : Decidable (boundaryTwin n a b) :=
  inferInstanceAs (Decidable (a = b ∨ (a = n ∧ b = n - 1) ∨ (a < 0 ∧ b = 0)))

/-- The sampled coordinate as the spec words it (section 4.1, steps 1-4) for the
scales `HALF` and `QUARTER`: the landmark coordinate plus the offset scaled by the
origin dimension `originDim`, times the ratio of the level's height `levelRows` to
the origin's height `originRows`, rounded, clamped to `[0, size - 1]`. -/
def specScaledCoord {D : Type} (F : Arith D) (originDim levelRows originRows size : Int)
    (landmark offset : D) : Int :=
  clampTo 0 (size - 1)
    (F.toInt (F.round (F.mul (F.add landmark (F.mul (F.ofInt originDim) offset))
      (F.div (F.ofInt levelRows) (F.ofInt originRows)))))

/-- The sampled coordinate as the spec words it for the scale `ORIGIN`, where no
scaling is applied: the landmark coordinate plus the offset scaled by the origin
dimension `originDim`, rounded, clamped to `[0, originDim - 1]`. -/
def specOriginCoord {D : Type} (F : Arith D) (originDim : Int) (landmark offset : D) : Int :=
  clampTo 0 (originDim - 1) (F.toInt (F.round (F.add landmark (F.mul (F.ofInt originDim) offset))))

/-! ## Sample pyramid, shape and descriptors -/

/-- A 4 x 4 origin image; the pixel at row `y`, column `x` is `60 * y + 10 * x`. -/
def sampleOrigin : Mat := ⟨4, 4, fun y x => ⟨(60 * y + 10 * x) % 256, Nat.mod_lt _ (by decide)⟩⟩

/-- A 2 x 2 half-resolution image; the pixel at row `y`, column `x` is
`200 - 90 * y - 30 * x` inside the image. -/
def sampleHalf : Mat := ⟨2, 2, fun y x => ⟨(200 - 90 * y - 30 * x) % 256, Nat.mod_lt _ (by decide)⟩⟩

/-- A 1 x 1 quarter-resolution image with the single pixel 77. -/
def sampleQuarter : Mat := ⟨1, 1, fun _ _ => 77⟩

/-- A shape with two landmarks, (1, 1) and (2, 3). -/
def sampleShape : Mat_ ℚ := [1, 1, 2, 3]

/-- A descriptor at scale `HALF` comparing landmark 0 with landmark 1. -/
def sampleFeature : Feature ℚ := ⟨Scale.HALF, 0, 1, 1 / 4, 1 / 2, -3, 2⟩

/-- A descriptor at scale `HALF` whose rounded coordinates on the sample pyramid
and shape are `(2, 2, -5, 2)`: column 2 and row 2 are one past the 2 x 2 level. -/
def clampFeatureOut : Feature ℚ := ⟨Scale.HALF, 0, 1, 3 / 4, 3 / 4, -3, 1 / 4⟩

/-- A descriptor at scale `HALF` whose rounded coordinates on the sample pyramid
and shape are `(1, 1, 0, 2)`. -/
def clampFeatureIn : Feature ℚ := ⟨Scale.HALF, 0, 1, 1 / 4, 1 / 4, -1 / 2, 1 / 4⟩

/-! ## Error metric -/

/-- The matrix difference `gt_shapes[i] - current_shapes[i]`, element by element;
OpenCV raises an error when the sizes differ. -/
def Mat_.sub {D : Type} (F : Arith D) (a b : Mat_ D) : Option (Mat_ D) :=
  if a.length = b.length then some (List.zipWith F.sub a b) else none

/-- The inner loop of `calcMeanError` (lines 98-101): for `j` from 0 below
`landmark_n`, add the length of the displacement of landmark `j` to `e`. -/
def landmarkLoop {D : Type} (F : Arith D) (delta_shape : Mat_ D) (landmark_n : Int) (e : D) :
    Option D :=
  (List.range landmark_n.toNat).foldlM
    (fun (e : D) (j : Nat) => do
      let dx ← Mat_.at? delta_shape (2 * (j : Int))
      let dy ← Mat_.at? delta_shape (2 * (j : Int) + 1)
      pure (F.add e (F.sqrt (F.add (F.pow dx 2) (F.pow dy 2)))))
    e

/-- `calcMeanError(gt_shapes, current_shapes)`, with the two fields it reads from
the configuration, `landmark_n` and `img_o_width`, as parameters.  The result is
`none` when a read falls outside a vector or a matrix or the sizes of a pair
differ. -/
def calcMeanError {D : Type} (F : Arith D) (landmark_n img_o_width : Int)
    (gt_shapes current_shapes : List (Mat_ D)) : Option D := do
  let N : Int := gt_shapes.length
  let e ← (List.range N.toNat).foldlM
    (fun (e : D) (i : Nat) => do
      let g ← gt_shapes.get? i
      let c ← current_shapes.get? i
      let delta_shape ← Mat_.sub F g c
      landmarkLoop F delta_shape landmark_n e)
    (F.ofInt 0)
  let e := F.div e (F.ofInt (landmark_n * N))
  let e := F.div e (F.ofInt img_o_width)
  pure e

/-- The sum of the spec (section 4.3): over samples `i < N` and landmarks `j < L`,
the Euclidean distance between ground truth and prediction. -/
def specErrorSum {α : Type} [LinearOrderedField α] (sqrt : α → α) (N L : Nat)
    (gt pred : List (Mat_ α)) : α :=
  ∑ i in Finset.range N, ∑ j in Finset.range L,
    sqrt (((gt.getD i []).getD (2 * j) 0 - (pred.getD i []).getD (2 * j) 0) ^ 2 +
      ((gt.getD i []).getD (2 * j + 1) 0 - (pred.getD i []).getD (2 * j + 1) 0) ^ 2)

/-! ## Command dispatch -/

/-- The four drivers declared in `main.cpp`; their bodies are external. -/
inductive Driver where
  | train
  | resume
  | live
  | fddb
  deriving DecidableEq, Repr

/-- The command word of a driver. -/
def Driver.word : Driver → String
  | .train => "train"
  | .resume => "resume"
  | .live => "live"
  | .fddb => "fddb"

/-- What `main` does before it returns: a call of a driver, or text written to
standard output. -/
inductive Event where
  | call (d : Driver)
  | print (text : String)
  deriving DecidableEq, Repr

/-- The usage text `help`. -/
def help : String :=
  "Joint Cascade Face Detection and Alignment\n\n" ++
  "train:  train JDA classifier and regressor for face detection\n" ++
  "        and face alignemnt\n" ++
  "resume: resume a previous training status\n" ++
  "live:   live demo with camera support\n" ++
  "fddb:   detection over fddb\n\n"

/-- `main(argc, argv)` with `argc = argv.length`: the events in order and the
value returned.  A driver is external code; the trace records its call, and the
status is what `main` returns once the driver has returned.  The usage text holds
no conversion specification, so `printf(help)` writes it as it is. -/
def main (argv : List String) : List Event × Int :=
  if argv.length ≠ 2 then ([Event.print help], 0)
  else if argv.get? 1 = some "train" then ([Event.call Driver.train], 0)
  else if argv.get? 1 = some "resume" then ([Event.call Driver.resume], 0)
  else if argv.get? 1 = some "live" then ([Event.call Driver.live], 0)
  else if argv.get? 1 = some "fddb" then ([Event.call Driver.fddb], 0)
  else ([Event.print help], 0)

/-! ## Configuration -/

/-- Modelled from the spec: the JSON library `jsmn.hpp`, whose values the
constructor of `Config` reads, is not among the sources.  A value is a number, a
boolean, a string, an array or an object; section 6 of the spec: missing any
required key is a fatal load error. -/
inductive Json where
  | number (x : ℚ)
  | boolean (b : Bool)
  | string (s : String)
  | array (items : List Json)
  | object (members : List (String × Json))

/-- The lookup `value[key]`; `none` is the fatal load error. -/
def Json.get (j : Json) (key : String) : Option Json :=
  match j with
  | .object members => members.lookup key
  | _ => none

/-- The lookup `value[i]` in an array; `none` is the fatal load error. -/
def Json.at (j : Json) (i : Int) : Option Json :=
  match j with
  | .array items => if 0 ≤ i then items.get? i.toNat else none
  | _ => none

/-- `unwrap<Number>()`. -/
def Json.unwrapNumber : Json → Option ℚ
  | .number x => some x
  | _ => none

/-- `unwrap<Boolean>()`. -/
def Json.unwrapBoolean : Json → Option Bool
  | .boolean b => some b
  | _ => none

/-- `unwrap<jsmn::String>()`. -/
def Json.unwrapString : Json → Option String
  | .string s => some s
  | _ => none

/-- `unwrap<Object>()`. -/
def Json.unwrapObject : Json → Option Json
  | .object members => some (.object members)
  | _ => none

/-- Modelled from the spec: class `Config` is declared in `jda/common.hpp`, which
is not among the sources.  The fields are those the constructor assigns; counts,
sizes and indices are integers (section 3 of the spec), the other numbers hold
the value read. -/
structure Config where
  T : Int
  K : Int
  landmark_n : Int
  tree_depth : Int
  shift_size : ℚ
  multi_scale : Bool
  img_o_width : Int
  img_o_height : Int
  img_h_width : Int
  img_h_height : Int
  img_q_width : Int
  img_q_height : Int
  x_step : ℚ
  y_step : ℚ
  scale_factor : ℚ
  mining_pool_size : Int
  esp : ℚ
  feats : List ℚ
  nps : List ℚ
  radius : List ℚ
  probs : List ℚ
  /-- the field `recall` of the source; the word is reserved here -/
  recalls : List ℚ
  train_pos_txt : String
  test_pos_txt : String
  train_neg_txt : String
  test_neg_txt : String
  detection_txt : String
  phase : Int
  current_stage_idx : Int
  current_cart_idx : Int
  tmp_model : String

/-- The five per-stage vectors while the loop of the constructor fills them. -/
structure StageVectors where
  feats : List ℚ
  nps : List ℚ
  radius : List ℚ
  probs : List ℚ
  /-- the field `recall` of the source -/
  recalls : List ℚ
  deriving DecidableEq

/-- The expression `obj[key].unwrap<Number>()`. -/
def Json.numberAt (obj : Json) (key : String) : Option ℚ :=
  (obj.get key).bind Json.unwrapNumber

/-- The expression `obj[key].unwrap<Number>()` assigned to an `int`. -/
def Json.intAt (obj : Json) (key : String) : Option Int :=
  (obj.numberAt key).map ctrunc

/-- The expression `obj[key].unwrap<Boolean>()`. -/
def Json.booleanAt (obj : Json) (key : String) : Option Bool :=
  (obj.get key).bind Json.unwrapBoolean

/-- The expression `obj[key].unwrap<jsmn::String>()`. -/
def Json.stringAt (obj : Json) (key : String) : Option String :=
  (obj.get key).bind Json.unwrapString

/-- The expression `obj[key].unwrap<Object>()`. -/
def Json.objectAt (obj : Json) (key : String) : Option Json :=
  (obj.get key).bind Json.unwrapObject

/-- The expression `stages[name][i].unwrap<Number>()`. -/
def Json.entryAt (stages : Json) (name : String) (i : Int) : Option ℚ :=
  ((stages.get name).bind (fun a => a.at i)).bind Json.unwrapNumber

/-- The body of the loop over the stages (lines 165-169): five `push_back`. -/
def stageStep (stages : Json) (v : StageVectors) (i : Nat) : Option StageVectors :=
  (stages.entryAt "feature_pool_size" i).bind fun (x1 : ℚ) =>
  (stages.entryAt "neg_pos_ratio" i).bind fun (x2 : ℚ) =>
  (stages.entryAt "random_sample_radius" i).bind fun (x3 : ℚ) =>
  (stages.entryAt "classification_p" i).bind fun (x4 : ℚ) =>
  (stages.entryAt "recall" i).bind fun (x5 : ℚ) =>
  some ⟨v.feats ++ [x1], v.nps ++ [x2], v.radius ++ [x3], v.probs ++ [x4], v.recalls ++ [x5]⟩

/-- The loop `for (int i = 0; i < T; i++)` of the constructor.  It starts from
empty vectors: `feats`, `radius` and `probs` are cleared just before, `nps` and
`recall` are members the constructor has not touched yet. -/
def stageLoop (stages : Json) (T : Int) : Option StageVectors :=
  (List.range T.toNat).foldlM (stageStep stages) ⟨[], [], [], [], []⟩

/-- Sequencing of the statements of the constructor: continue with the value
read, or stop at the fatal load error. -/
def andThen {α β : Type} (x : Option α) (f : α → Option β) : Option β :=
  match x with
  | none => none
  | some a => f a

/-- The constructor `Config::Config()` on the parsed content `json_config` of
`../config.json`; `omp_max_threads` is the value of `omp_get_max_threads()`.
`none` is the fatal load error. -/
def Config.construct (json_config : Json) (omp_max_threads : Int) : Option Config :=
  andThen (json_config.intAt "T") fun (T : Int) =>
  andThen (json_config.intAt "K") fun (K : Int) =>
  andThen (json_config.intAt "landmark_n") fun (landmark_n : Int) =>
  andThen (json_config.intAt "tree_depth") fun (tree_depth : Int) =>
  andThen (json_config.numberAt "random_shift") fun (shift_size : ℚ) =>
  andThen (json_config.objectAt "image_size") fun (image_size_config : Json) =>
  andThen (image_size_config.booleanAt "multi_scale") fun (multi_scale : Bool) =>
  andThen (image_size_config.intAt "origin_w") fun (img_o_width : Int) =>
  andThen (image_size_config.intAt "origin_h") fun (img_o_height : Int) =>
  andThen (image_size_config.intAt "half_w") fun (img_h_width : Int) =>
  andThen (image_size_config.intAt "half_h") fun (img_h_height : Int) =>
  andThen (image_size_config.intAt "quarter_w") fun (img_q_width : Int) =>
  andThen (image_size_config.intAt "quarter_h") fun (img_q_height : Int) =>
  andThen (json_config.objectAt "hard_negative_mining") fun (mining_config : Json) =>
  andThen (mining_config.numberAt "x_step") fun (x_step : ℚ) =>
  andThen (mining_config.numberAt "y_step") fun (y_step : ℚ) =>
  andThen (mining_config.numberAt "scale") fun (scale_factor : ℚ) =>
  andThen (json_config.objectAt "stages") fun (stages : Json) =>
  andThen (stageLoop stages T) fun (v : StageVectors) =>
  andThen (json_config.objectAt "data") fun (data : Json) =>
  andThen (data.stringAt "face") fun (train_pos_txt : String) =>
  andThen (data.stringAt "background") fun (train_neg_txt : String) =>
  andThen (json_config.stringAt "phase") fun (phase : String) =>
  andThen (json_config.intAt "current_stage_idx") fun (current_stage_idx : Int) =>
  andThen (json_config.intAt "current_cart_idx") fun (current_cart_idx : Int) =>
  andThen (json_config.stringAt "tmp_model") fun (tmp_model : String) =>
  some {
    T := T, K := K, landmark_n := landmark_n, tree_depth := tree_depth,
    shift_size := shift_size, multi_scale := multi_scale,
    img_o_width := img_o_width, img_o_height := img_o_height,
    img_h_width := img_h_width, img_h_height := img_h_height,
    img_q_width := img_q_width, img_q_height := img_q_height,
    x_step := x_step, y_step := y_step, scale_factor := scale_factor,
    mining_pool_size := omp_max_threads, esp := 22 / 10 ^ 17,
    feats := v.feats, nps := v.nps, radius := v.radius, probs := v.probs, recalls := v.recalls,
    train_pos_txt := train_pos_txt, test_pos_txt := "../data/test.txt",
    train_neg_txt := train_neg_txt, test_neg_txt := "../data/test_nega.txt",
    detection_txt := "../data/detection.txt",
    phase := if phase = "train" then 0 else 1,
    current_stage_idx := current_stage_idx, current_cart_idx := current_cart_idx,
    tmp_model := tmp_model }

/-- Element `i` of the array `name` of the object `stages` of a document. -/
def stageEntry (doc : Json) (name : String) (i : Nat) : Option ℚ :=
  (doc.objectAt "stages").bind fun (stages : Json) => stages.entryAt name i

/-- The vector `xs` holds the first `n` elements of the array `name` of the object
`stages`, in order. -/
def Filled (stages : Json) (name : String) (xs : List ℚ) (n : Nat) : Prop :=
  xs.length = n ∧ ∀ i : Nat, i < n → stages.entryAt name i = some (xs.getD i 0)

/-- A configuration document with two stages. -/
def sampleJson : Json :=
  .object [
    ("T", .number 2), ("K", .number 3), ("landmark_n", .number 5),
    ("tree_depth", .number 4), ("random_shift", .number (1 / 10)),
    ("image_size", .object [
      ("multi_scale", .boolean true),
      ("origin_w", .number 80), ("origin_h", .number 80),
      ("half_w", .number 56), ("half_h", .number 56),
      ("quarter_w", .number 40), ("quarter_h", .number 40)]),
    ("hard_negative_mining", .object [
      ("x_step", .number 10), ("y_step", .number 10), ("scale", .number (6 / 5))]),
    ("stages", .object [
      ("feature_pool_size", .array [.number 1000, .number 2000]),
      ("neg_pos_ratio", .array [.number 1, .number 2]),
      ("random_sample_radius", .array [.number (2 / 5), .number (3 / 10)]),
      ("classification_p", .array [.number (9 / 10), .number (4 / 5)]),
      ("recall", .array [.number (99 / 100), .number (98 / 100)])]),
    ("data", .object [("face", .string "face.txt"), ("background", .string "bg.txt")]),
    ("phase", .string "train"),
    ("current_stage_idx", .number 0), ("current_cart_idx", .number 0),
    ("tmp_model", .string "tmp.model")]

/-! ## Lemmas on reads and the boundary check -/

theorem Mat_.at?_of_lt {D : Type} (s : Mat_ D) (i : Int) (h0 : 0 ≤ i)
    (h1 : i < (s.length : Int)) : ∃ d, Mat_.at? s i = some d := by
  have hlt : i.toNat < s.length := by omega
  exact ⟨s.get ⟨i.toNat, hlt⟩, by simp [Mat_.at?, h0, List.get?_eq_get hlt]⟩

theorem Mat_.at?_of_holds {D : Type} (s : Mat_ D) (id : Int) (hs : Mat_.holds s id) :
    ∃ a b, Mat_.at? s (2 * id) = some a ∧ Mat_.at? s (2 * id + 1) = some b := by
  obtain ⟨h0, h1⟩ := hs
  obtain ⟨a, ha⟩ := Mat_.at?_of_lt s (2 * id) (by omega) (by omega)
  obtain ⟨b, hb⟩ := Mat_.at?_of_lt s (2 * id + 1) (by omega) h1
  exact ⟨a, b, ha, hb⟩

theorem clampTo_mem (n x : Int) (hn : 1 ≤ n) :
    0 ≤ clampTo 0 (n - 1) x ∧ clampTo 0 (n - 1) x < n := by
  unfold clampTo
  omega

theorem checkBoundaryOfImage_eq_clampTo (w h x y : Int) (hw : 1 ≤ w) (hh : 1 ≤ h) :
    checkBoundaryOfImage w h x y = (clampTo 0 (w - 1) x, clampTo 0 (h - 1) y) := by
  unfold checkBoundaryOfImage clampTo
  refine Prod.ext ?_ ?_ <;> simp only <;> split_ifs <;> omega

theorem Mat.at?_of_mem (m : Mat) (y x : Int) (hy : 0 ≤ y ∧ y < m.rows)
    (hx : 0 ≤ x ∧ x < m.cols) : m.at? y x = some (m.pix y.toNat x.toNat) := by
  unfold Mat.at?
  rw [if_pos ⟨hy.1, hy.2, hx.1, hx.2⟩]

theorem Mat.at?_of_empty (m : Mat) (y x : Int) (he : ¬ (1 ≤ m.cols ∧ 1 ≤ m.rows)) :
    m.at? y x = none := by
  unfold Mat.at?
  rw [if_neg]
  omega

/-- On a non-empty image the pair of reads is defined and is the difference of
the pixels at the clamped coordinates. -/
theorem samplePair_eq (img : Mat) (hw : 1 ≤ img.cols) (hh : 1 ≤ img.rows)
    (c : Int × Int × Int × Int) :
    samplePair img img.cols img.rows c =
      Outcome.returned
        (((img.pix (clampTo 0 (img.rows - 1) c.2.1).toNat
              (clampTo 0 (img.cols - 1) c.1).toNat).val : Int) -
          ((img.pix (clampTo 0 (img.rows - 1) c.2.2.2).toNat
              (clampTo 0 (img.cols - 1) c.2.2.1).toNat).val : Int)) := by
  have hw1 : (1 : Int) ≤ img.cols := by exact_mod_cast hw
  have hh1 : (1 : Int) ≤ img.rows := by exact_mod_cast hh
  unfold samplePair
  simp only [checkBoundaryOfImage_eq_clampTo _ _ _ _ hw1 hh1]
  rw [Mat.at?_of_mem img _ _ (clampTo_mem _ _ hh1) (clampTo_mem _ _ hw1),
    Mat.at?_of_mem img _ _ (clampTo_mem _ _ hh1) (clampTo_mem _ _ hw1)]

theorem samplePair_empty (img : Mat) (he : ¬ (1 ≤ img.cols ∧ 1 ≤ img.rows))
    (c : Int × Int × Int × Int) :
    samplePair img img.cols img.rows c = Outcome.undefined := by
  unfold samplePair
  simp only [Mat.at?_of_empty img _ _ he]

theorem clampTo_twin (n a b : Int) (hn : 1 ≤ n) (ht : boundaryTwin n a b) :
    clampTo 0 (n - 1) a = clampTo 0 (n - 1) b := by
  unfold clampTo
  rcases ht with h | ⟨h1, h2⟩ | ⟨h1, h2⟩ <;> omega

/-- The level the `switch` builds: the image named by the scale, with its own
dimensions. -/
theorem selectLevel_of_pyramidLevel {D : Type} (F : Arith D) (scale : Scale)
    (o h q img : Mat) (hl : pyramidLevel scale o h q = some img) :
    ∃ r, selectLevel F scale o h q = some ⟨r, img.rows, img.cols, img⟩ := by
  cases scale <;> simp [pyramidLevel] at hl <;> subst hl <;> exact ⟨_, rfl⟩

theorem selectLevel_dims {D : Type} (F : Arith D) (scale : Scale) (o h q : Mat)
    (lv : Level D) (hl : selectLevel F scale o h q = some lv) :
    lv.width = lv.img.cols ∧ lv.height = lv.img.rows := by
  cases scale <;> simp [selectLevel] at hl <;> subst hl <;> exact ⟨rfl, rfl⟩

/-- With a supported scale, defined landmark reads and a non-empty level, the
call returns the difference of the pixels at the clamped rounded coordinates. -/
theorem CalcFeatureValue_eq {D : Type} (F : Arith D) (clock : String) (f : Feature D)
    (o h q : Mat) (s : Mat_ D) (lv : Level D) (c : Int × Int × Int × Int)
    (hl : selectLevel F f.scale o h q = some lv)
    (hc : roundedCoords F f o lv.ratio s = some c)
    (hw : 1 ≤ lv.img.cols) (hh : 1 ≤ lv.img.rows) :
    CalcFeatureValue F clock f o h q s =
      Outcome.returned
        (((lv.img.pix (clampTo 0 (lv.img.rows - 1) c.2.1).toNat
              (clampTo 0 (lv.img.cols - 1) c.1).toNat).val : Int) -
          ((lv.img.pix (clampTo 0 (lv.img.rows - 1) c.2.2.2).toNat
              (clampTo 0 (lv.img.cols - 1) c.2.2.1).toNat).val : Int)) := by
  obtain ⟨hwd, hht⟩ := selectLevel_dims F f.scale o h q lv hl
  unfold CalcFeatureValue
  rw [hl]
  simp only [hc, hwd, hht]
  exact samplePair_eq lv.img hw hh c

theorem roundedCoords_of_reads {D : Type} (F : Arith D) (f : Feature D) (o : Mat)
    (r : D) (s : Mat_ D) (sx1 sy1 sx2 sy2 : D)
    (hx1 : Mat_.at? s (2 * f.landmark_id1) = some sx1)
    (hy1 : Mat_.at? s (2 * f.landmark_id1 + 1) = some sy1)
    (hx2 : Mat_.at? s (2 * f.landmark_id2) = some sx2)
    (hy2 : Mat_.at? s (2 * f.landmark_id2 + 1) = some sy2) :
    roundedCoords F f o r s =
      some (projectCoord F o.cols r sx1 f.offset1_x, projectCoord F o.rows r sy1 f.offset1_y,
        projectCoord F o.cols r sx2 f.offset2_x, projectCoord F o.rows r sy2 f.offset2_y) := by
  simp only [roundedCoords, hx1, hy1, hx2, hy2]

theorem roundedCoords_of_holds {D : Type} (F : Arith D) (f : Feature D) (o : Mat)
    (r : D) (s : Mat_ D) (h1 : Mat_.holds s f.landmark_id1)
    (h2 : Mat_.holds s f.landmark_id2) : ∃ c, roundedCoords F f o r s = some c := by
  obtain ⟨a1, b1, ha1, hb1⟩ := Mat_.at?_of_holds s _ h1
  obtain ⟨a2, b2, ha2, hb2⟩ := Mat_.at?_of_holds s _ h2
  exact ⟨_, roundedCoords_of_reads F f o r s a1 b1 a2 b2 ha1 hb1 ha2 hb2⟩

/-! ## Claims on the feature evaluator -/

/-- C1: for a supported scale naming a level `img` of width and height at least 1
(its pixels are 8-bit by type) and a shape holding both landmarks,
`Feature::CalcFeatureValue` returns an integer `v` with `-255 ≤ v ≤ 255`, whatever
the floating-point arithmetic computes. -/
theorem CalcFeatureValue_range {D : Type} (F : Arith D) (clock : String) (f : Feature D)
    (o h q img : Mat) (s : Mat_ D)
    (hlevel : pyramidLevel f.scale o h q = some img)
    (hw : 1 ≤ img.cols) (hh : 1 ≤ img.rows)
    (h1 : Mat_.holds s f.landmark_id1) (h2 : Mat_.holds s f.landmark_id2) :
    ∃ v : Int, CalcFeatureValue F clock f o h q s = Outcome.returned v ∧
      -255 ≤ v ∧ v ≤ 255 := by
  obtain ⟨r, hl⟩ := selectLevel_of_pyramidLevel F f.scale o h q img hlevel
  obtain ⟨c, hc⟩ := roundedCoords_of_holds F f o r s h1 h2
  refine ⟨_, CalcFeatureValue_eq F clock f o h q s _ c hl hc hw hh, ?_, ?_⟩ <;>
    simp only <;> omega

/-- C1 at a concrete input: `sampleFeature` on the sample pyramid and shape. -/
theorem CalcFeatureValue_range_witness :
    ∃ v : Int, CalcFeatureValue ratArith "[t]" sampleFeature sampleOrigin sampleHalf
        sampleQuarter sampleShape = Outcome.returned v ∧ -255 ≤ v ∧ v ≤ 255 :=
  CalcFeatureValue_range ratArith "[t]" sampleFeature sampleOrigin sampleHalf sampleQuarter
    sampleHalf sampleShape rfl (by decide) (by decide) (by decide) (by decide)

/-- C5: for a scale other than `ORIGIN`, `HALF`, `QUARTER`, whatever the pyramid and
the shape, `Feature::CalcFeatureValue` writes the time-stamped diagnostic
`Unsupported SCALE` and leaves through `exit(-1)`, a non-zero status; it returns no
value.  For a supported scale the call does not exit. -/
theorem CalcFeatureValue_unsupported_scale {D : Type} (F : Arith D) (clock : String)
    (f : Feature D) (o h q : Mat) (s : Mat_ D) :
    (f.scale.supported = false →
      (∃ status : Int, status ≠ 0 ∧ CalcFeatureValue F clock f o h q s =
          Outcome.exited (clock ++ " Unsupported SCALE\n") status) ∧
        ∀ v : Int, CalcFeatureValue F clock f o h q s ≠ Outcome.returned v) ∧
    (f.scale.supported = true →
      ∀ (out : String) (status : Int),
        CalcFeatureValue F clock f o h q s ≠ Outcome.exited out status) := by
  constructor
  · intro hs
    have hex : CalcFeatureValue F clock f o h q s =
        Outcome.exited (clock ++ " Unsupported SCALE\n") (-1) := by
      cases hsc : f.scale <;> simp [hsc, Scale.supported] at hs
      simp only [CalcFeatureValue, selectLevel, hsc, dieWithMsg, LOG, String.append_assoc]
      rfl
    exact ⟨⟨-1, by decide, hex⟩, fun v hv => by rw [hex] at hv; cases hv⟩
  · intro hs out status
    have key : ∀ lv : Level D, selectLevel F f.scale o h q = some lv →
        CalcFeatureValue F clock f o h q s ≠ Outcome.exited out status := by
      intro lv hl
      unfold CalcFeatureValue
      rw [hl]
      simp only
      cases hc : roundedCoords F f o lv.ratio s with
      | none => simp
      | some c =>
        simp only [samplePair]
        split <;> simp
    cases hsc : f.scale <;> simp [hsc, Scale.supported] at hs
    · exact key _ (by rw [hsc]; rfl)
    · exact key _ (by rw [hsc]; rfl)
    · exact key _ (by rw [hsc]; rfl)

/-- C5 at concrete inputs: the scale value 7 exits with status -1 after the
diagnostic line, and the scale `HALF` does not exit. -/
theorem CalcFeatureValue_unsupported_scale_witness :
    ((∃ status : Int, status ≠ 0 ∧
        CalcFeatureValue ratArith "[t]" { sampleFeature with scale := Scale.unsupported 7 }
          sampleOrigin sampleHalf sampleQuarter sampleShape =
            Outcome.exited ("[t]" ++ " Unsupported SCALE\n") status) ∧
      ∀ v : Int,
        CalcFeatureValue ratArith "[t]" { sampleFeature with scale := Scale.unsupported 7 }
          sampleOrigin sampleHalf sampleQuarter sampleShape ≠ Outcome.returned v) ∧
    ∀ (out : String) (status : Int),
      CalcFeatureValue ratArith "[t]" sampleFeature sampleOrigin sampleHalf sampleQuarter
        sampleShape ≠ Outcome.exited out status :=
  ⟨(CalcFeatureValue_unsupported_scale ratArith "[t]"
      { sampleFeature with scale := Scale.unsupported 7 }
      sampleOrigin sampleHalf sampleQuarter sampleShape).1 rfl,
   (CalcFeatureValue_unsupported_scale ratArith "[t]" sampleFeature
      sampleOrigin sampleHalf sampleQuarter sampleShape).2 rfl⟩

/-- C6: for a supported scale naming a non-empty level `img` and a shape holding
the landmark, a descriptor with `landmark_id1 = landmark_id2` and both offsets
`(0, 0)` makes `Feature::CalcFeatureValue` return 0. -/
theorem CalcFeatureValue_same_point {D : Type} (F : Arith D) (clock : String)
    (f : Feature D) (o h q img : Mat) (s : Mat_ D)
    (hlevel : pyramidLevel f.scale o h q = some img)
    (hw : 1 ≤ img.cols) (hh : 1 ≤ img.rows)
    (hid : f.landmark_id1 = f.landmark_id2)
    (h1x : f.offset1_x = F.ofInt 0) (h1y : f.offset1_y = F.ofInt 0)
    (h2x : f.offset2_x = F.ofInt 0) (h2y : f.offset2_y = F.ofInt 0)
    (hs : Mat_.holds s f.landmark_id1) :
    CalcFeatureValue F clock f o h q s = Outcome.returned 0 := by
  obtain ⟨r, hl⟩ := selectLevel_of_pyramidLevel F f.scale o h q img hlevel
  obtain ⟨a, b, ha, hb⟩ := Mat_.at?_of_holds s _ hs
  have hc := roundedCoords_of_reads F f o r s a b a b ha hb (hid ▸ ha) (hid ▸ hb)
  rw [CalcFeatureValue_eq F clock f o h q s _ _ hl hc hw hh]
  simp only [h1x, h1y, h2x, h2y, sub_self]

/-- C6 at a concrete input: landmark 1 against itself with zero offsets, scale
`QUARTER`. -/
theorem CalcFeatureValue_same_point_witness :
    CalcFeatureValue ratArith "[t]" ⟨Scale.QUARTER, 1, 1, 0, 0, 0, 0⟩ sampleOrigin sampleHalf
      sampleQuarter sampleShape = Outcome.returned 0 :=
  CalcFeatureValue_same_point ratArith "[t]" ⟨Scale.QUARTER, 1, 1, 0, 0, 0, 0⟩ sampleOrigin
    sampleHalf sampleQuarter sampleQuarter sampleShape rfl (by decide) (by decide) rfl
    (by simp [ratArith, exactArith]) (by simp [ratArith, exactArith])
    (by simp [ratArith, exactArith]) (by simp [ratArith, exactArith]) (by decide)

/-- C2: two descriptors of the same scale whose rounded projected coordinates are
pairwise equal, or the width (height) of the selected level in the first against
width - 1 (height - 1) in the second, or negative in the first against 0 in the
second, give the same result, on every pyramid and shape; on a non-empty level
that result is a returned value. -/
theorem CalcFeatureValue_clamp {D : Type} (F : Arith D) (clock : String)
    (f g : Feature D) (o h q : Mat) (s : Mat_ D) (lv : Level D)
    (c d : Int × Int × Int × Int)
    (hscale : g.scale = f.scale)
    (hl : selectLevel F f.scale o h q = some lv)
    (hc : roundedCoords F f o lv.ratio s = some c)
    (hd : roundedCoords F g o lv.ratio s = some d)
    (hx1 : boundaryTwin lv.width c.1 d.1) (hy1 : boundaryTwin lv.height c.2.1 d.2.1)
    (hx2 : boundaryTwin lv.width c.2.2.1 d.2.2.1)
    (hy2 : boundaryTwin lv.height c.2.2.2 d.2.2.2) :
    CalcFeatureValue F clock f o h q s = CalcFeatureValue F clock g o h q s ∧
    (1 ≤ lv.img.cols → 1 ≤ lv.img.rows →
      ∃ v : Int, CalcFeatureValue F clock g o h q s = Outcome.returned v) := by
  obtain ⟨hwd, hht⟩ := selectLevel_dims F f.scale o h q lv hl
  have hl2 : selectLevel F g.scale o h q = some lv := by rw [hscale]; exact hl
  rw [hwd] at hx1 hx2
  rw [hht] at hy1 hy2
  refine ⟨?_, fun hw hh => ⟨_, CalcFeatureValue_eq F clock g o h q s lv d hl2 hd hw hh⟩⟩
  by_cases hne : 1 ≤ lv.img.cols ∧ 1 ≤ lv.img.rows
  · have hw1 : (1 : Int) ≤ lv.img.cols := by exact_mod_cast hne.1
    have hh1 : (1 : Int) ≤ lv.img.rows := by exact_mod_cast hne.2
    rw [CalcFeatureValue_eq F clock f o h q s lv c hl hc hne.1 hne.2,
      CalcFeatureValue_eq F clock g o h q s lv d hl2 hd hne.1 hne.2,
      clampTo_twin _ _ _ hw1 hx1, clampTo_twin _ _ _ hh1 hy1,
      clampTo_twin _ _ _ hw1 hx2, clampTo_twin _ _ _ hh1 hy2]
  · unfold CalcFeatureValue
    rw [hl, hl2]
    simp only [hc, hd, hwd, hht, samplePair_empty lv.img hne]

/-- C2 at a concrete input: on the 2 x 2 half level, rounded coordinates
`(2, 2, -5, 2)` against `(1, 1, 0, 2)`; both descriptors sample row 1, column 1
(pixel 80) and row 1, column 0 (pixel 110). -/
theorem CalcFeatureValue_clamp_witness :
    roundedCoords ratArith clampFeatureOut sampleOrigin (2 / 4) sampleShape = some (2, 2, -5, 2) ∧
    roundedCoords ratArith clampFeatureIn sampleOrigin (2 / 4) sampleShape = some (1, 1, 0, 2) ∧
    CalcFeatureValue ratArith "[t]" clampFeatureOut sampleOrigin sampleHalf sampleQuarter
        sampleShape =
      CalcFeatureValue ratArith "[t]" clampFeatureIn sampleOrigin sampleHalf sampleQuarter
        sampleShape ∧
    CalcFeatureValue ratArith "[t]" clampFeatureIn sampleOrigin sampleHalf sampleQuarter
        sampleShape = Outcome.returned (-30) :=
  ⟨by decide!, by decide!,
    (CalcFeatureValue_clamp ratArith "[t]" clampFeatureOut clampFeatureIn sampleOrigin
      sampleHalf sampleQuarter sampleShape
      ⟨ratArith.div (ratArith.ofInt 2) (ratArith.ofInt 4), 2, 2, sampleHalf⟩
      (2, 2, -5, 2) (1, 1, 0, 2)
      rfl rfl (by decide!) (by decide!) (by decide) (by decide) (by decide)
      (by decide)).1,
    by decide!⟩

/-- C7: for a descriptor with scale `ORIGIN` the `switch` sets the ratio to exactly 1
and selects the origin buffer; the result does not change when the half and
quarter buffers are replaced by any others; and, multiplication by 1 being the
identity, on a non-empty origin buffer and a shape holding the landmark reads
`sx1, sy1, sx2, sy2` the result is the difference of the origin pixels at the
rounded, clamped origin-space coordinates. -/
theorem CalcFeatureValue_origin {D : Type} (F : Arith D) (clock : String) (f : Feature D)
    (o h q : Mat) (s : Mat_ D) (hs : f.scale = Scale.ORIGIN) :
    (∃ lv : Level D, selectLevel F f.scale o h q = some lv ∧ lv.ratio = F.ofInt 1 ∧
      lv.img = o) ∧
    (∀ h2 q2 : Mat, CalcFeatureValue F clock f o h2 q2 s = CalcFeatureValue F clock f o h q s) ∧
    (∀ sx1 sy1 sx2 sy2 : D, (∀ x : D, F.mul x (F.ofInt 1) = x) →
      Mat_.at? s (2 * f.landmark_id1) = some sx1 →
      Mat_.at? s (2 * f.landmark_id1 + 1) = some sy1 →
      Mat_.at? s (2 * f.landmark_id2) = some sx2 →
      Mat_.at? s (2 * f.landmark_id2 + 1) = some sy2 →
      1 ≤ o.cols → 1 ≤ o.rows →
      CalcFeatureValue F clock f o h q s =
        Outcome.returned
          (((o.pix (specOriginCoord F o.rows sy1 f.offset1_y).toNat
                (specOriginCoord F o.cols sx1 f.offset1_x).toNat).val : Int) -
            ((o.pix (specOriginCoord F o.rows sy2 f.offset2_y).toNat
                (specOriginCoord F o.cols sx2 f.offset2_x).toNat).val : Int))) := by
  have hl : ∀ h2 q2 : Mat, selectLevel F f.scale o h2 q2 = some ⟨F.ofInt 1, o.rows, o.cols, o⟩ := by
    intro h2 q2
    rw [hs]
    rfl
  refine ⟨⟨_, hl h q, rfl, rfl⟩, ?_, ?_⟩
  · intro h2 q2
    unfold CalcFeatureValue
    rw [hl h2 q2, hl h q]
  · intro sx1 sy1 sx2 sy2 hone hx1 hy1 hx2 hy2 hw hh
    have hc := roundedCoords_of_reads F f o (F.ofInt 1) s sx1 sy1 sx2 sy2 hx1 hy1 hx2 hy2
    rw [CalcFeatureValue_eq F clock f o h q s _ _ (hl h q) hc hw hh]
    simp only [projectCoord, hone, specOriginCoord]

/-- C7 at a concrete input: scale `ORIGIN` on the sample pyramid, against the
pyramid whose half and quarter buffers are exchanged. -/
theorem CalcFeatureValue_origin_witness :
    (∃ lv : Level ℚ, selectLevel ratArith Scale.ORIGIN sampleOrigin sampleHalf sampleQuarter =
        some lv ∧ lv.ratio = 1 ∧ lv.img = sampleOrigin) ∧
    CalcFeatureValue ratArith "[t]" { sampleFeature with scale := Scale.ORIGIN } sampleOrigin
        sampleQuarter sampleHalf sampleShape =
      CalcFeatureValue ratArith "[t]" { sampleFeature with scale := Scale.ORIGIN } sampleOrigin
        sampleHalf sampleQuarter sampleShape ∧
    CalcFeatureValue ratArith "[t]" { sampleFeature with scale := Scale.ORIGIN } sampleOrigin
        sampleHalf sampleQuarter sampleShape =
      Outcome.returned
        (((sampleOrigin.pix
              (specOriginCoord ratArith 4 1 sampleFeature.offset1_y).toNat
              (specOriginCoord ratArith 4 1 sampleFeature.offset1_x).toNat).val : Int) -
          ((sampleOrigin.pix
              (specOriginCoord ratArith 4 3 sampleFeature.offset2_y).toNat
              (specOriginCoord ratArith 4 2 sampleFeature.offset2_x).toNat).val : Int)) :=
  have key := CalcFeatureValue_origin ratArith "[t]" { sampleFeature with scale := Scale.ORIGIN }
    sampleOrigin sampleHalf sampleQuarter sampleShape rfl
  ⟨by simpa [ratArith, exactArith] using key.1, key.2.1 sampleQuarter sampleHalf,
    key.2.2 1 1 2 3 (by intro x; simp [ratArith, exactArith]) rfl rfl rfl rfl
      (by decide) (by decide)⟩

/-- C10: for scale `HALF` (resp. `QUARTER`) with selected level `lvl` the half
(resp. quarter) buffer, non-empty, and landmark reads `sx1, sy1, sx2, sy2`, the
result is intensity(point 1) - intensity(point 2) where each point has column
clamp(round((x + origin.cols * offset_x) * ratio), 0, lvl.cols - 1) and row
clamp(round((y + origin.rows * offset_y) * ratio), 0, lvl.rows - 1), with
ratio = lvl.rows / origin.rows for both: offsets are scaled by the origin's
dimensions and the single height ratio serves x and y. -/
theorem CalcFeatureValue_scaled {D : Type} (F : Arith D) (clock : String) (f : Feature D)
    (o h q lvl : Mat) (s : Mat_ D) (sx1 sy1 sx2 sy2 : D)
    (hsel : (f.scale = Scale.HALF ∧ lvl = h) ∨ (f.scale = Scale.QUARTER ∧ lvl = q))
    (hx1 : Mat_.at? s (2 * f.landmark_id1) = some sx1)
    (hy1 : Mat_.at? s (2 * f.landmark_id1 + 1) = some sy1)
    (hx2 : Mat_.at? s (2 * f.landmark_id2) = some sx2)
    (hy2 : Mat_.at? s (2 * f.landmark_id2 + 1) = some sy2)
    (hw : 1 ≤ lvl.cols) (hh : 1 ≤ lvl.rows) :
    CalcFeatureValue F clock f o h q s =
      Outcome.returned
        (((lvl.pix (specScaledCoord F o.rows lvl.rows o.rows lvl.rows sy1 f.offset1_y).toNat
              (specScaledCoord F o.cols lvl.rows o.rows lvl.cols sx1 f.offset1_x).toNat).val : Int) -
          ((lvl.pix (specScaledCoord F o.rows lvl.rows o.rows lvl.rows sy2 f.offset2_y).toNat
              (specScaledCoord F o.cols lvl.rows o.rows lvl.cols sx2 f.offset2_x).toNat).val : Int)) := by
  have hl : selectLevel F f.scale o h q =
      some ⟨F.div (F.ofInt lvl.rows) (F.ofInt o.rows), lvl.rows, lvl.cols, lvl⟩ := by
    rcases hsel with ⟨hs, rfl⟩ | ⟨hs, rfl⟩ <;> rw [hs] <;> rfl
  have hc := roundedCoords_of_reads F f o (F.div (F.ofInt lvl.rows) (F.ofInt o.rows)) s
    sx1 sy1 sx2 sy2 hx1 hy1 hx2 hy2
  rw [CalcFeatureValue_eq F clock f o h q s _ _ hl hc hw hh]
  simp only [projectCoord, specScaledCoord]

/-- C10 at a concrete input: `sampleFeature` (scale `HALF`) samples the half level
at row 1, column 1 and at row 1, column 0, and returns 80 - 110. -/
theorem CalcFeatureValue_scaled_witness :
    CalcFeatureValue ratArith "[t]" sampleFeature sampleOrigin sampleHalf sampleQuarter
        sampleShape =
      Outcome.returned
        (((sampleHalf.pix (specScaledCoord ratArith 4 2 4 2 1 (1 / 2)).toNat
              (specScaledCoord ratArith 4 2 4 2 1 (1 / 4)).toNat).val : Int) -
          ((sampleHalf.pix (specScaledCoord ratArith 4 2 4 2 3 2).toNat
              (specScaledCoord ratArith 4 2 4 2 2 (-3)).toNat).val : Int)) ∧
    specScaledCoord ratArith 4 2 4 2 1 (1 / 2) = 1 ∧
    specScaledCoord ratArith 4 2 4 2 1 (1 / 4) = 1 ∧
    specScaledCoord ratArith 4 2 4 2 3 2 = 1 ∧
    specScaledCoord ratArith 4 2 4 2 2 (-3) = 0 ∧
    CalcFeatureValue ratArith "[t]" sampleFeature sampleOrigin sampleHalf sampleQuarter
        sampleShape = Outcome.returned (-30) :=
  ⟨CalcFeatureValue_scaled ratArith "[t]" sampleFeature sampleOrigin sampleHalf sampleQuarter
      sampleHalf sampleShape 1 1 2 3 (Or.inl ⟨rfl, rfl⟩) rfl rfl rfl rfl (by decide) (by decide),
    by decide!, by decide!, by decide!, by decide!, by decide!⟩

/-! ## Lemmas on the error metric under exact arithmetic -/

theorem Mat_.at?_natCast {D : Type} (s : Mat_ D) (k : Nat) :
    Mat_.at? s (k : Int) = s.get? k := by
  simp [Mat_.at?]

theorem Mat_.sub_exact {α : Type} [LinearOrderedField α] [FloorRing α] (sq : α → α)
    (a b : Mat_ α) (hab : a.length = b.length) :
    ∃ d : Mat_ α, Mat_.sub (exactArith α sq) a b = some d ∧ d.length = a.length ∧
      ∀ k, k < a.length → d.get? k = some (a.getD k 0 - b.getD k 0) := by
  refine ⟨List.zipWith (fun x y => x - y) a b, ?_, ?_, ?_⟩
  · simp [Mat_.sub, hab, exactArith]
  · simp [hab]
  · intro k hk
    have hkb : k < b.length := hab ▸ hk
    simp [List.getElem?_zipWith, List.getD_eq_getElem?_getD, List.getElem?_eq_getElem hk, List.getElem?_eq_getElem hkb]

theorem landmarkLoop_exact {α : Type} [LinearOrderedField α] [FloorRing α] (sq : α → α)
    (d : Mat_ α) (f : Nat → α) (n : Nat) (e : α)
    (hd : ∀ j, j < n → ∃ x y, d.get? (2 * j) = some x ∧ d.get? (2 * j + 1) = some y ∧
      sq (x ^ 2 + y ^ 2) = f j) :
    landmarkLoop (exactArith α sq) d (n : Int) e = some (e + ∑ j in Finset.range n, f j) := by
  unfold landmarkLoop
  rw [Int.toNat_natCast]
  induction n with
  | zero => simp
  | succ n ih =>
    rw [List.range_succ, List.foldlM_append, ih (fun j hj => hd j (Nat.lt_succ_of_lt hj))]
    obtain ⟨x, y, hx, hy, hf⟩ := hd n (Nat.lt_succ_self n)
    have h1 : Mat_.at? d (2 * (n : Int)) = some x := by
      rw [← hx, ← Mat_.at?_natCast]; push_cast; rfl
    have h2 : Mat_.at? d (2 * (n : Int) + 1) = some y := by
      rw [← hy, ← Mat_.at?_natCast]; push_cast; rfl
    simp only [Option.bind_eq_bind, Option.some_bind, List.foldlM_cons, List.foldlM_nil, h1, h2]
    simp [exactArith, Finset.sum_range_succ, hf, add_assoc]

theorem shapesLoop_exact {α : Type} [LinearOrderedField α] [FloorRing α] (sq : α → α)
    (L : Nat) (gt cur : List (Mat_ α)) (hlen : cur.length = gt.length)
    (hgt : ∀ g ∈ gt, g.length = 2 * L) (hcur : ∀ c ∈ cur, c.length = 2 * L)
    (n : Nat) (hn : n ≤ gt.length) (e : α) :
    (List.range n).foldlM
      (fun (e : α) (i : Nat) => do
        let g ← gt.get? i
        let c ← cur.get? i
        let delta_shape ← Mat_.sub (exactArith α sq) g c
        landmarkLoop (exactArith α sq) delta_shape (L : Int) e) e =
      some (e + specErrorSum sq n L gt cur) := by
  induction n with
  | zero => simp [specErrorSum]
  | succ n ih =>
    have hng : n < gt.length := hn
    have hnc : n < cur.length := hlen ▸ hn
    have hg : (gt.getD n []).length = 2 * L := by
      rw [List.getD_eq_getElem _ _ hng]; exact hgt _ (List.getElem_mem _)
    have hc : (cur.getD n []).length = 2 * L := by
      rw [List.getD_eq_getElem _ _ hnc]; exact hcur _ (List.getElem_mem _)
    have hgn : gt.get? n = some (gt.getD n []) := by
      simp [List.getD_eq_getElem?_getD, List.getElem?_eq_getElem hng]
    have hcn : cur.get? n = some (cur.getD n []) := by
      simp [List.getD_eq_getElem?_getD, List.getElem?_eq_getElem hnc]
    obtain ⟨d, hd, -, hdk⟩ := Mat_.sub_exact sq (gt.getD n []) (cur.getD n []) (hg.trans hc.symm)
    rw [List.range_succ, List.foldlM_append, ih (Nat.le_of_lt hn)]
    simp only [Option.bind_eq_bind, Option.some_bind, List.foldlM_cons, List.foldlM_nil, hgn, hcn,
      hd]
    rw [landmarkLoop_exact sq d (fun j =>
      sq (((gt.getD n []).getD (2 * j) 0 - (cur.getD n []).getD (2 * j) 0) ^ 2 +
        ((gt.getD n []).getD (2 * j + 1) 0 - (cur.getD n []).getD (2 * j + 1) 0) ^ 2)) L _
      (fun j hj => ⟨_, _, hdk (2 * j) (by omega), hdk (2 * j + 1) (by omega), rfl⟩)]
    simp [specErrorSum, Finset.sum_range_succ, add_assoc]

theorem calcMeanError_exact {α : Type} [LinearOrderedField α] [FloorRing α] (sq : α → α)
    (L : Nat) (W : Int) (gt cur : List (Mat_ α)) (hlen : cur.length = gt.length)
    (hgt : ∀ g ∈ gt, g.length = 2 * L) (hcur : ∀ c ∈ cur, c.length = 2 * L) :
    calcMeanError (exactArith α sq) L W gt cur =
      some (specErrorSum sq gt.length L gt cur / ((L : α) * (gt.length : α)) / (W : α)) := by
  unfold calcMeanError
  simp only [Int.toNat_natCast]
  rw [shapesLoop_exact sq L gt cur hlen hgt hcur gt.length le_rfl]
  simp [exactArith]

/-! ## Claims on the error metric -/

/-- C3: for `N ≥ 1` matched pairs of shapes with exactly `2 * L` entries each,
`L ≥ 1`, and origin image width `W > 0`, `calcMeanError`, read over the reals,
divides by two non-zero numbers and returns
(sum over samples and landmarks of sqrt((gt_x - pred_x)^2 + (gt_y - pred_y)^2))
/ (L * N) / W. -/
theorem calcMeanError_formula (L : Nat) (W : Int) (gt pred : List (Mat_ ℝ))
    (hN : 1 ≤ gt.length) (hL : 1 ≤ L) (hW : 0 < W)
    (hlen : pred.length = gt.length)
    (hgt : ∀ g ∈ gt, g.length = 2 * L) (hpred : ∀ c ∈ pred, c.length = 2 * L) :
    (exactArith ℝ Real.sqrt).ofInt ((L : Int) * (gt.length : Int)) ≠ 0 ∧
    (exactArith ℝ Real.sqrt).ofInt W ≠ 0 ∧
    calcMeanError (exactArith ℝ Real.sqrt) L W gt pred =
      some (specErrorSum Real.sqrt gt.length L gt pred / ((L : ℝ) * (gt.length : ℝ)) / (W : ℝ)) := by
  refine ⟨?_, ?_, calcMeanError_exact Real.sqrt L W gt pred hlen hgt hpred⟩
  · have h1 : (L : Int) * (gt.length : Int) ≠ 0 := by positivity
    simp only [exactArith]
    exact_mod_cast h1
  · simp only [exactArith]
    exact_mod_cast ne_of_gt hW

/-- C3 at the concrete scenario of the spec: one sample, one landmark, ground
truth (0, 0), prediction (10, 0), width 100: the error is 1/10, over the reals
and, evaluated, over the rationals. -/
theorem calcMeanError_formula_witness :
    calcMeanError (exactArith ℝ Real.sqrt) 1 100 [[0, 0]] [[10, 0]] = some (1 / 10) ∧
    calcMeanError ratArith 1 100 [[0, 0]] [[10, 0]] = some (1 / 10) := by
  have h := (calcMeanError_formula 1 100 [[0, 0]] [[10, 0]] (by decide) (by decide) (by decide)
    rfl (by simp) (by simp)).2.2
  have hs : Real.sqrt (10 ^ 2) = 10 := Real.sqrt_sq (by norm_num)
  simp only [Nat.cast_one] at h
  refine ⟨?_, by decide!⟩
  rw [h]
  simp [specErrorSum, hs]
  norm_num

/-- C4: for `N ≥ 1` pairs of shapes with `L ≥ 1` landmarks and a non-zero origin
image width, when every predicted shape equals its ground truth, `calcMeanError`,
read over the reals, divides by two non-zero numbers and returns exactly 0. -/
theorem calcMeanError_zero (L : Nat) (W : Int) (gt pred : List (Mat_ ℝ))
    (hN : 1 ≤ gt.length) (hL : 1 ≤ L) (hW : W ≠ 0)
    (hgt : ∀ g ∈ gt, g.length = 2 * L) (heq : pred = gt) :
    (exactArith ℝ Real.sqrt).ofInt ((L : Int) * (gt.length : Int)) ≠ 0 ∧
    (exactArith ℝ Real.sqrt).ofInt W ≠ 0 ∧
    calcMeanError (exactArith ℝ Real.sqrt) L W gt pred = some 0 := by
  subst heq
  refine ⟨?_, ?_, ?_⟩
  · have h1 : (L : Int) * (pred.length : Int) ≠ 0 := by positivity
    simp only [exactArith]
    exact_mod_cast h1
  · simp only [exactArith]
    exact_mod_cast hW
  · rw [calcMeanError_exact Real.sqrt L W pred pred rfl hgt hgt]
    simp [specErrorSum]

/-- C4 at a concrete input: two samples of two landmarks each, predicted exactly. -/
theorem calcMeanError_zero_witness :
    calcMeanError (exactArith ℝ Real.sqrt) 2 100 [[0, 0, 1, 1], [3, 4, 5, 6]]
      [[0, 0, 1, 1], [3, 4, 5, 6]] = some 0 := by
  have h := (calcMeanError_zero 2 100 [[0, 0, 1, 1], [3, 4, 5, 6]] [[0, 0, 1, 1], [3, 4, 5, 6]]
    (by decide) (by decide) (by decide) (by simp) rfl).2.2
  simpa using h

/-! ## Claim on the command dispatch -/

/-- C8: for every argument vector `main` returns 0; with exactly one argument
that is the word of a driver it calls that driver and nothing else, printing
nothing; in every other case (an argument count other than one, or a word that
names no driver) it calls no driver and prints the usage text. -/
theorem main_dispatch (argv : List String) :
    (main argv).2 = 0 ∧
    (∀ d : Driver, argv.length = 2 → argv.get? 1 = some d.word →
      (main argv).1 = [Event.call d]) ∧
    ((argv.length ≠ 2 ∨ ∀ d : Driver, argv.get? 1 ≠ some d.word) →
      (main argv).1 = [Event.print help]) := by
  refine ⟨?_, ?_, ?_⟩
  · unfold main
    split_ifs <;> rfl
  · intro d hlen hd
    unfold main
    rw [if_neg (not_not.mpr hlen), hd]
    cases d <;> rfl
  · rintro (hlen | hw)
    · unfold main
      rw [if_pos hlen]
    · have h1 : argv.get? 1 ≠ some "train" := hw Driver.train
      have h2 : argv.get? 1 ≠ some "resume" := hw Driver.resume
      have h3 : argv.get? 1 ≠ some "live" := hw Driver.live
      have h4 : argv.get? 1 ≠ some "fddb" := hw Driver.fddb
      unfold main
      rw [if_neg h1, if_neg h2, if_neg h3, if_neg h4]
      split_ifs <;> rfl

/-- C8 at concrete argument vectors. -/
theorem main_dispatch_witness :
    main ["jda", "resume"] = ([Event.call Driver.resume], 0) ∧
    main ["jda"] = ([Event.print help], 0) ∧
    main ["jda", "test"] = ([Event.print help], 0) ∧
    main ["jda", "train", "live"] = ([Event.print help], 0) :=
  ⟨Prod.ext ((main_dispatch ["jda", "resume"]).2.1 Driver.resume rfl rfl)
      (main_dispatch ["jda", "resume"]).1,
    Prod.ext ((main_dispatch ["jda"]).2.2 (Or.inl (by decide))) (main_dispatch ["jda"]).1,
    Prod.ext ((main_dispatch ["jda", "test"]).2.2 (Or.inr (by intro d; cases d <;> decide)))
      (main_dispatch ["jda", "test"]).1,
    Prod.ext ((main_dispatch ["jda", "train", "live"]).2.2 (Or.inl (by decide)))
      (main_dispatch ["jda", "train", "live"]).1⟩

/-! ## Lemmas on the configuration -/

theorem andThen_eq_some {α β : Type} (x : Option α) (f : α → Option β) (b : β) :
    andThen x f = some b ↔ ∃ a, x = some a ∧ f a = some b := by
  cases x <;> simp [andThen]

theorem Filled.push (stages : Json) (name : String) (xs : List ℚ) (n : Nat) (x : ℚ)
    (h : Filled stages name xs n) (hx : stages.entryAt name n = some x) :
    Filled stages name (xs ++ [x]) (n + 1) := by
  obtain ⟨hl, he⟩ := h
  refine ⟨by simp [hl], fun i hi => ?_⟩
  rcases Nat.lt_succ_iff_lt_or_eq.mp hi with hlt | rfl
  · rw [List.getD_append _ _ _ _ (hl ▸ hlt)]
    exact he i hlt
  · rw [List.getD_append_right _ _ _ _ (le_of_eq hl)]
    simpa [hl] using hx

theorem stageLoop_filled (stages : Json) (n : Nat) (v : StageVectors)
    (h : (List.range n).foldlM (stageStep stages) ⟨[], [], [], [], []⟩ = some v) :
    Filled stages "feature_pool_size" v.feats n ∧ Filled stages "neg_pos_ratio" v.nps n ∧
    Filled stages "random_sample_radius" v.radius n ∧
    Filled stages "classification_p" v.probs n ∧ Filled stages "recall" v.recalls n := by
  induction n generalizing v with
  | zero =>
    simp at h
    subst h
    simp [Filled]
  | succ n ih =>
    rw [List.range_succ, List.foldlM_append] at h
    simp only [Option.bind_eq_bind, Option.bind_eq_some, List.foldlM_cons, List.foldlM_nil] at h
    obtain ⟨v0, hv0, v1, hstep, hv1⟩ := h
    simp only [Option.pure_def, Option.some.injEq] at hv1
    subst hv1
    obtain ⟨h1, h2, h3, h4, h5⟩ := ih v0 hv0
    simp only [stageStep, Option.bind_eq_some, Option.some.injEq] at hstep
    obtain ⟨x1, e1, x2, e2, x3, e3, x4, e4, x5, e5, rfl⟩ := hstep
    exact ⟨h1.push _ _ _ _ _ e1, h2.push _ _ _ _ _ e2, h3.push _ _ _ _ _ e3,
      h4.push _ _ _ _ _ e4, h5.push _ _ _ _ _ e5⟩

/-- What the constructor leaves in the stage count and the per-stage vectors. -/
theorem Config.construct_stages (doc : Json) (threads : Int) (c : Config)
    (hc : Config.construct doc threads = some c) :
    doc.intAt "T" = some c.T ∧
    ∃ stages v, doc.objectAt "stages" = some stages ∧ stageLoop stages c.T = some v ∧
      c.feats = v.feats ∧ c.nps = v.nps ∧ c.radius = v.radius ∧ c.probs = v.probs ∧
      c.recalls = v.recalls := by
  simp only [Config.construct, andThen_eq_some] at hc
  obtain ⟨T, hT, K, -, landmark_n, -, tree_depth, -, shift_size, -, image_size_config, -,
    multi_scale, -, img_o_width, -, img_o_height, -, img_h_width, -, img_h_height, -,
    img_q_width, -, img_q_height, -, mining_config, -, x_step, -, y_step, -, scale_factor, -,
    stages, hst, v, hv, data, -, train_pos_txt, -, train_neg_txt, -, phase, -,
    current_stage_idx, -, current_cart_idx, -, tmp_model, -, hc⟩ := hc
  simp only [Option.some.injEq] at hc
  subst hc
  exact ⟨hT, stages, v, hst, hv, rfl, rfl, rfl, rfl, rfl⟩

/-! ## Claim on the configuration -/

/-- C9: after a successful construction of `Config` from a document whose stage
count is `T`, each of the five per-stage vectors (`feats` from `feature_pool_size`,
`nps` from `neg_pos_ratio`, `radius` from `random_sample_radius`, `probs` from
`classification_p`, `recall` from `recall`) has exactly `T` entries, and entry `i`
of each is element `i` of the corresponding array of the document. -/
theorem Config_stage_vectors (doc : Json) (threads : Int) (c : Config) (T : Nat)
    (hT : doc.intAt "T" = some (T : Int))
    (hc : Config.construct doc threads = some c) :
    c.T = T ∧
    (c.feats.length = T ∧ c.nps.length = T ∧ c.radius.length = T ∧ c.probs.length = T ∧
      c.recalls.length = T) ∧
    ∀ i : Nat, i < T →
      stageEntry doc "feature_pool_size" i = some (c.feats.getD i 0) ∧
      stageEntry doc "neg_pos_ratio" i = some (c.nps.getD i 0) ∧
      stageEntry doc "random_sample_radius" i = some (c.radius.getD i 0) ∧
      stageEntry doc "classification_p" i = some (c.probs.getD i 0) ∧
      stageEntry doc "recall" i = some (c.recalls.getD i 0) := by
  obtain ⟨hcT, stages, v, hst, hv, e1, e2, e3, e4, e5⟩ := Config.construct_stages doc threads c hc
  have hTc : c.T = (T : Int) := by
    rw [hT] at hcT
    exact (Option.some.inj hcT).symm
  rw [hTc] at hv
  unfold stageLoop at hv
  rw [Int.toNat_natCast] at hv
  obtain ⟨h1, h2, h3, h4, h5⟩ := stageLoop_filled stages T v hv
  rw [e1, e2, e3, e4, e5]
  refine ⟨hTc, ⟨h1.1, h2.1, h3.1, h4.1, h5.1⟩, fun i hi => ?_⟩
  simp only [stageEntry, hst, Option.some_bind]
  exact ⟨h1.2 i hi, h2.2 i hi, h3.2 i hi, h4.2 i hi, h5.2 i hi⟩

/-- C9 at a concrete input: the sample document, with two stages, loads, and the
vectors of the configuration are its arrays. -/
theorem Config_stage_vectors_witness :
    ∃ c : Config, Config.construct sampleJson 8 = some c ∧
      c.T = (2 : Nat) ∧
      (c.feats.length = 2 ∧ c.nps.length = 2 ∧ c.radius.length = 2 ∧ c.probs.length = 2 ∧
        c.recalls.length = 2) ∧
      ∀ i : Nat, i < 2 →
        stageEntry sampleJson "feature_pool_size" i = some (c.feats.getD i 0) ∧
        stageEntry sampleJson "neg_pos_ratio" i = some (c.nps.getD i 0) ∧
        stageEntry sampleJson "random_sample_radius" i = some (c.radius.getD i 0) ∧
        stageEntry sampleJson "classification_p" i = some (c.probs.getD i 0) ∧
        stageEntry sampleJson "recall" i = some (c.recalls.getD i 0) := by
  obtain ⟨c, hc⟩ := Option.isSome_iff_exists.mp
    (by decide! : (Config.construct sampleJson 8).isSome = true)
  exact ⟨c, hc, Config_stage_vectors sampleJson 8 c 2 (by decide!) hc⟩

end jda
